import Mathlib

/-!
Verification development for the AlphaVantage stock-data fetcher
(`src/fetch.py`).

The repository fetches daily price/volume history for one symbol plus three
provider-computed indicators (RSI, MACD, SMA), derives a rolling volatility
column, and merges everything into one date-indexed table.

Shallow embedding conventions:
  * trading dates are natural numbers (the date keys of the JSON payloads,
    already parsed; JSON object keys are unique strings);
  * a raw JSON numeric field is `RawVal`: either a numeric-parseable value
    (`num q`, idealised as a rational) or an unparsable one (`bad`), on which
    the pandas `dtype=float` conversion raises;
  * a raw response for one endpoint is `Option (List (date × entry))`:
    `none` models the expected payload key being absent from the decoded
    body (provider error/notice payload), `some entries` models the payload
    being present with those entries;
  * a transport-level failure of `requests.get`/`response.json()` is
    `Except.error FetchErr` delivered by the provider model, since the code
    has no try/except anywhere and such exceptions propagate;
  * float arithmetic of the volatility column is idealised over `PVal`
    (NaN / +inf / -inf / finite rational); the square root inside the
    sample standard deviation is an abstract parameter `sqrt : ℚ → ℚ`, and
    the behaviour of the pandas rolling kernel on a full window that
    contains an infinity (library-internal) is an abstract parameter `nf`.
-/

namespace Watai

/-- A raw JSON field value as seen by `pd.DataFrame.from_dict(..., dtype=float)`:
either numeric-parseable (idealised rational) or unparsable (raises). -/
inductive RawVal where
  | num (q : ℚ)
  | bad
deriving DecidableEq, Repr

/-- One raw entry of the "Time Series (Daily)" payload:
the five fields "1. open" .. "5. volume". -/
structure RawOHLCV where
  open_ : RawVal
  high : RawVal
  low : RawVal
  close : RawVal
  volume : RawVal
deriving DecidableEq, Repr

/-- One parsed price/volume row (columns renamed to open/high/low/close/volume). -/
structure OHLCV where
  open_ : ℚ
  high : ℚ
  low : ℚ
  close : ℚ
  volume : ℚ
deriving DecidableEq, Repr

/-- One raw entry of the "Technical Analysis: MACD" payload
(fields MACD, MACD_Signal, MACD_Hist). -/
structure RawMACD where
  MACD : RawVal
  MACD_Signal : RawVal
  MACD_Hist : RawVal
deriving DecidableEq, Repr

/-- One parsed MACD row. -/
structure MACDRow where
  MACD : ℚ
  MACD_Signal : ℚ
  MACD_Hist : ℚ
deriving DecidableEq, Repr

/-- Transport-level failure of the underlying `requests.get` /
`response.json()` call (network error, malformed body encoding, ...). -/
inductive FetchErr where
  | transport
deriving DecidableEq, Repr

/-- An error terminating a run: missing credential (`ValueError` in
`__init__`), a propagated transport exception, or a normalization failure
(KeyError / ValueError while building a DataFrame). -/
inductive RunErr where
  | config
  | fetch (e : FetchErr)
  | norm
deriving DecidableEq, Repr

/-- Parse one raw field; `bad` raises under `dtype=float`. -/
def RawVal.parse? : RawVal → Option ℚ
  | .num q => some q
  | .bad => none

/-- Parse one raw OHLCV entry; any unparsable field fails the whole
`from_dict(..., dtype=float)` conversion. -/
def parseOHLCV (r : RawOHLCV) : Option OHLCV :=
  match r.open_.parse?, r.high.parse?, r.low.parse?, r.close.parse?, r.volume.parse? with
  | some o, some h, some l, some c, some v => some ⟨o, h, l, c, v⟩
  | _, _, _, _, _ => none

/-- Parse one raw MACD entry (all three fields are converted by
`dtype=float`, including MACD_Hist even though it is not merged). -/
def parseMACD (r : RawMACD) : Option MACDRow :=
  match r.MACD.parse?, r.MACD_Signal.parse?, r.MACD_Hist.parse? with
  | some m, some s, some h => some ⟨m, s, h⟩
  | _, _, _ => none

/-- Parse every entry of a payload, keeping the date keys; one unparsable
value fails the whole conversion (no partially-parsed series). -/
def parseEntries (f : α → Option β) : List (ℕ × α) → Option (List (ℕ × β))
  | [] => some []
  | (d, r) :: rest =>
    match f r, parseEntries f rest with
    | some p, some ps => some ((d, p) :: ps)
    | _, _ => none

/-- Order on payload entries used by `df.sort_index()`: compare date keys. -/
def dateLE (a b : ℕ × α) : Prop := a.1 ≤ b.1

instance : DecidableRel (@dateLE α) := fun a b => Nat.decLe a.1 b.1

instance : IsTotal (ℕ × α) dateLE := ⟨fun a b => Nat.le_total a.1 b.1⟩

instance : IsTrans (ℕ × α) dateLE := ⟨fun _ _ _ => Nat.le_trans⟩

/-- `df.sort_index()`: sort the entries ascending by date key. -/
def sortByDate (l : List (ℕ × α)) : List (ℕ × α) :=
  List.insertionSort dateLE l

/-- `_get_price_volume`, normalization part.  `none` (payload key absent)
raises a KeyError on `data['Time Series (Daily)']`; an unparsable value
raises in `from_dict(..., dtype=float)`; an empty payload yields a 0-column
DataFrame on which `df.columns = [5 names]` raises a length-mismatch
ValueError.  Both surface as a fatal normalization failure. -/
def getPriceVolume : Option (List (ℕ × RawOHLCV)) → Except RunErr (List (ℕ × OHLCV))
  | none => .error .norm
  | some entries =>
    match parseEntries parseOHLCV entries with
    | none => .error .norm
    | some parsed =>
      if parsed.isEmpty then .error .norm
      else .ok (sortByDate parsed)

/-- `_get_rsi` / `_get_sma`, normalization part: if the expected payload key
is absent the code returns `pd.DataFrame()` (empty series); otherwise it
parses and sorts, raising on unparsable values. -/
def getIndicator1 : Option (List (ℕ × RawVal)) → Except RunErr (List (ℕ × ℚ))
  | none => .ok []
  | some entries =>
    match parseEntries RawVal.parse? entries with
    | none => .error .norm
    | some parsed => .ok (sortByDate parsed)

/-- `_get_macd`, normalization part. -/
def getMacd : Option (List (ℕ × RawMACD)) → Except RunErr (List (ℕ × MACDRow))
  | none => .ok []
  | some entries =>
    match parseEntries parseMACD entries with
    | none => .error .norm
    | some parsed => .ok (sortByDate parsed)

/-- An IEEE-754-style cell value of the volatility column: NaN, an
infinity, or a finite value (idealised as a rational). -/
inductive PVal where
  | nan
  | pinf
  | ninf
  | fin (q : ℚ)
deriving DecidableEq, Repr

/-- `PVal.isNan v` is true exactly on NaN (`pandas.isna`); infinities are
not NaN and count as observations for `min_periods`. -/
def PVal.isNan : PVal → Bool
  | .nan => true
  | _ => false

/-- `PVal.isFin v` is true exactly on finite values. -/
def PVal.isFin : PVal → Bool
  | .fin _ => true
  | _ => false

/-- The finite value carried by a `PVal` (junk on non-finite inputs,
used only under an all-finite guard). -/
def PVal.finVal : PVal → ℚ
  | .fin q => q
  | _ => 0

/-- IEEE float division `a / b` for finite `a`, `b` (the value of
`close.pct_change()` at one position, written as `(c_i - c_prev) / c_prev`):
division by zero yields a signed infinity, `0/0` yields NaN, and no
exception is raised. -/
def divIEEE (a b : ℚ) : PVal :=
  if b = 0 then
    if a = 0 then .nan else if 0 < a then .pinf else .ninf
  else .fin (a / b)

/-- Tail of `close.pct_change()`: value at each position is the IEEE
percentage change against the previous close. -/
def pctChangeAux : ℚ → List ℚ → List PVal
  | _, [] => []
  | prev, c :: rest => divIEEE (c - prev) prev :: pctChangeAux c rest

/-- `close.pct_change()`: first value is NaN, then IEEE percentage changes
(all closes are parsed finite floats, so no forward-fill is involved). -/
def pctChange : List ℚ → List PVal
  | [] => []
  | c :: rest => PVal.nan :: pctChangeAux c rest

/-- The trailing window of (up to) 20 values ending at position `i`, as used
by `rolling(20)`. -/
def window20 (rs : List PVal) (i : ℕ) : List PVal :=
  (rs.take (i + 1)).drop (i + 1 - 20)

/-- Arithmetic mean of a finite list of rationals. -/
def listMean (xs : List ℚ) : ℚ := xs.sum / xs.length

/-- Sample variance with the (n-1) divisor, as `pandas.Series.std`
(default `ddof=1`) squares to on finite data. -/
def sampleVar (xs : List ℚ) : ℚ :=
  ((xs.map (fun x => (x - listMean xs) ^ 2)).sum) / ((xs.length : ℚ) - 1)

/-- `rolling(20).std()` on one window: with fewer than 20 non-NaN values the
result is NaN (`min_periods` defaults to the window size, and NaN values are
excluded from the observation count); with 20 all-finite values it is the
sample standard deviation, `sqrt` of the (n-1)-divisor variance; a full
window containing an infinity is library-internal float arithmetic and is
left abstract as `nf`. -/
def stdOfWindow (sqrt : ℚ → ℚ) (nf : List PVal → PVal) (w : List PVal) : PVal :=
  if (w.filter (fun v => !v.isNan)).length < 20 then .nan
  else if w.all PVal.isFin then .fin (sqrt (sampleVar (w.map PVal.finVal)))
  else nf w

/-- `Series.rolling(20).std()`: one output per input position. -/
def rollingStd (sqrt : ℚ → ℚ) (nf : List PVal → PVal) (rs : List PVal) : List PVal :=
  (List.range rs.length).map (fun i => stdOfWindow sqrt nf (window20 rs i))

/-- The volatility column of `get_stock_data`:
`price_data['close'].pct_change().rolling(20).std()`. -/
def volatilityCol (sqrt : ℚ → ℚ) (nf : List PVal → PVal)
    (pv : List (ℕ × OHLCV)) : List PVal :=
  rollingStd sqrt nf (pctChange (pv.map (fun x => x.2.close)))

/-- The merged output DataFrame: an ordered date index plus ordered,
named columns (each column one cell per date). -/
structure Table where
  dates : List ℕ
  cols : List (String × List PVal)
deriving DecidableEq, Repr

/-- Index-aligned assignment `combined_data[c] = series[f]`: the cell at a
price date is the series value on an exact date match, else NaN. -/
def lookupCell (s : List (ℕ × ℚ)) (d : ℕ) : PVal :=
  match s.lookup d with
  | some v => .fin v
  | none => .nan

/-- The merge step of `get_stock_data`: one row per price date in order;
volatility always appended; each optional indicator contributes its
column(s) only when its normalized series is non-empty (`if not df.empty`),
filled by exact date alignment. -/
def mkTable (sqrt : ℚ → ℚ) (nf : List PVal → PVal) (pv : List (ℕ × OHLCV))
    (rsi : List (ℕ × ℚ)) (macd : List (ℕ × MACDRow)) (sma : List (ℕ × ℚ)) : Table :=
  let dates := pv.map Prod.fst
  { dates := dates
    cols :=
      [("open", pv.map (fun x => PVal.fin x.2.open_)),
       ("high", pv.map (fun x => PVal.fin x.2.high)),
       ("low", pv.map (fun x => PVal.fin x.2.low)),
       ("close", pv.map (fun x => PVal.fin x.2.close)),
       ("volume", pv.map (fun x => PVal.fin x.2.volume)),
       ("volatility", volatilityCol sqrt nf pv)]
      ++ (if rsi.isEmpty then [] else
        [("rsi", dates.map (lookupCell rsi))])
      ++ (if macd.isEmpty then [] else
        [("macd", dates.map (lookupCell (macd.map (fun x => (x.1, x.2.MACD))))),
         ("macd_signal", dates.map (lookupCell (macd.map (fun x => (x.1, x.2.MACD_Signal)))))])
      ++ (if sma.isEmpty then [] else
        [("sma_20", dates.map (lookupCell sma))]) }

/-- The four transport-level answers the provider gives to this run's four
requests (each either a decoded body or a raised transport exception). -/
structure ProviderResponses where
  price : Except FetchErr (Option (List (ℕ × RawOHLCV)))
  rsi : Except FetchErr (Option (List (ℕ × RawVal)))
  macd : Except FetchErr (Option (List (ℕ × RawMACD)))
  sma : Except FetchErr (Option (List (ℕ × RawVal)))

/-- One fetch-then-normalize step: a raised transport exception propagates
(there is no try/except in the code), otherwise the normalizer runs. -/
def fetchStep (resp : Except FetchErr α) (norm : α → Except RunErr β) : Except RunErr β :=
  match resp with
  | .error e => .error (.fetch e)
  | .ok raw => norm raw

/-- `get_stock_data`: fetch+normalize the mandatory price series, then RSI,
MACD and SMA in that order (any exception aborts the run), then merge. -/
def get_stock_data (sqrt : ℚ → ℚ) (nf : List PVal → PVal)
    (r : ProviderResponses) : Except RunErr Table :=
  match fetchStep r.price getPriceVolume with
  | .error e => .error e
  | .ok pv =>
    match fetchStep r.rsi getIndicator1 with
    | .error e => .error e
    | .ok rsi =>
      match fetchStep r.macd getMacd with
      | .error e => .error e
      | .ok macd =>
        match fetchStep r.sma getIndicator1 with
        | .error e => .error e
        | .ok sma => .ok (mkTable sqrt nf pv rsi macd sma)

/-- The configuration read from `config.yaml`: the symbol plus the
indicator parameters the spec lists as inbound configuration. -/
structure Config where
  symbol : String
  rsi_period : ℕ
  sma_period : ℕ
  macd_series_type : String
  sma_series_type : String
deriving DecidableEq, Repr

/-- Query parameters of the TIME_SERIES_DAILY request, with the apikey
added by `_api_call`. -/
def priceParams (cfg : Config) (apikey : String) : List (String × String) :=
  [("function", "TIME_SERIES_DAILY"), ("symbol", cfg.symbol),
   ("outputsize", "compact"), ("apikey", apikey)]

/-- Query parameters of the RSI request: `time_period` is the literal 14
and `series_type` the literal "close", independent of the configuration. -/
def rsiParams (cfg : Config) (apikey : String) : List (String × String) :=
  [("function", "RSI"), ("symbol", cfg.symbol), ("interval", "daily"),
   ("time_period", "14"), ("series_type", "close"), ("apikey", apikey)]

/-- Query parameters of the MACD request. -/
def macdParams (cfg : Config) (apikey : String) : List (String × String) :=
  [("function", "MACD"), ("symbol", cfg.symbol), ("interval", "daily"),
   ("series_type", "close"), ("apikey", apikey)]

/-- Query parameters of the SMA request: `time_period` is the literal 20
and `series_type` the literal "close", independent of the configuration. -/
def smaParams (cfg : Config) (apikey : String) : List (String × String) :=
  [("function", "SMA"), ("symbol", cfg.symbol), ("interval", "daily"),
   ("time_period", "20"), ("series_type", "close"), ("apikey", apikey)]

/-- `AlphaVantageDataFetcher.__init__`: reads the configuration, then
checks the ALPHA_VANTAGE_API_KEY environment variable and raises a
ValueError when it is unset (or the empty, falsy, string). -/
def initFetcher (cfg : Config) (env_api_key : Option String) :
    Except RunErr (Config × String) :=
  match env_api_key with
  | none => .error .config
  | some k => if k = "" then .error .config else .ok (cfg, k)

/-- A whole aggregation run, instrumented with the list of requests
actually issued: construct the fetcher (no request), then issue the four
requests one after another, stopping at the first raised exception. -/
def runAgg (sqrt : ℚ → ℚ) (nf : List PVal → PVal) (cfg : Config)
    (env_api_key : Option String) (r : ProviderResponses) :
    List (List (String × String)) × Except RunErr Table :=
  match initFetcher cfg env_api_key with
  | .error e => ([], .error e)
  | .ok (c, k) =>
    match fetchStep r.price getPriceVolume with
    | .error e => ([priceParams c k], .error e)
    | .ok pv =>
      match fetchStep r.rsi getIndicator1 with
      | .error e => ([priceParams c k, rsiParams c k], .error e)
      | .ok rsi =>
        match fetchStep r.macd getMacd with
        | .error e => ([priceParams c k, rsiParams c k, macdParams c k], .error e)
        | .ok macd =>
          match fetchStep r.sma getIndicator1 with
          | .error e =>
            ([priceParams c k, rsiParams c k, macdParams c k, smaParams c k], .error e)
          | .ok sma =>
            ([priceParams c k, rsiParams c k, macdParams c k, smaParams c k],
             .ok (mkTable sqrt nf pv rsi macd sma))

/-! ### Specification-side definitions

These follow the words of the specification (§4.3 and the C2 claim), to be
compared with the code-derived `volatilityCol`; they are used only on the
specification side of refinement statements. -/

/-- Tail of the specification's percentage-change sequence:
r_i = (c_i - c_prev) / c_prev as exact rational arithmetic. -/
def rSpecAux : ℚ → List ℚ → List (Option ℚ)
  | _, [] => []
  | prev, c :: rest => some ((c - prev) / prev) :: rSpecAux c rest

/-- The specification's percentage-change sequence: r_0 is undefined
(`none`), r_i = (c_i - c_{i-1}) / c_{i-1} for i ≥ 1. -/
def rSpec : List ℚ → List (Option ℚ)
  | [] => []
  | c :: rest => none :: rSpecAux c rest

/-- The specification's trailing 20-value window of percentage changes
ending at index i. -/
def windowSpec (rs : List (Option ℚ)) (i : ℕ) : List (Option ℚ) :=
  (rs.take (i + 1)).drop (i + 1 - 20)

/-- Embed the specification's defined/undefined values into the IEEE cell
domain: an undefined value is NaN, a defined one finite. -/
def optEmbed : Option ℚ → PVal
  | none => .nan
  | some q => .fin q

/-- One normalized series satisfies claim C9's invariants relative to its
raw payload: same dates as a multiset and same row count (no collapse, no
fabrication), each output row the parse of the input row at the same date
(fields kept with their date), dates weakly ascending, and strictly
ascending whenever the raw payload's parsed dates are distinct. -/
def SeriesInvariant (f : α → Option β) (e : List (ℕ × α)) (s : List (ℕ × β)) : Prop :=
  (s.map Prod.fst).Perm (e.map Prod.fst) ∧
  s.length = e.length ∧
  (∀ p ∈ s, ∃ raw, (p.1, raw) ∈ e ∧ f raw = some p.2) ∧
  (s.map Prod.fst).Pairwise (· ≤ ·) ∧
  ((e.map Prod.fst).Nodup → (s.map Prod.fst).Pairwise (· < ·))

/-- The mandatory part of the output is untouched: the rows are the price
series's dates and the first six columns are exactly the price/volume
columns plus the volatility column computed from the price series. -/
def MandatoryIntact (sqrt : ℚ → ℚ) (nf : List PVal → PVal) (t : Table)
    (pv : List (ℕ × OHLCV)) : Prop :=
  t.dates = pv.map Prod.fst ∧
  t.cols.take 6 =
    [("open", pv.map (fun x => PVal.fin x.2.open_)),
     ("high", pv.map (fun x => PVal.fin x.2.high)),
     ("low", pv.map (fun x => PVal.fin x.2.low)),
     ("close", pv.map (fun x => PVal.fin x.2.close)),
     ("volume", pv.map (fun x => PVal.fin x.2.volume)),
     ("volatility", volatilityCol sqrt nf pv)]

/-- The amended claim C1 as one predicate over a run whose mandatory price
series normalized to `pv`: a transport-level FetchError or a
NormalizationError (unparsable content) on any single one of the optional
indicators RSI, MACD, SMA aborts the whole run (under the code's
price → RSI → MACD → SMA sequencing, with the earlier steps succeeding),
while a transport-successful response lacking the expected payload key for
any single one of them merely degrades that indicator: the run still
returns the merged table, that indicator's columns are absent, and the rows
and the mandatory price/volume/volatility columns come from the price
series alone. -/
def AbortsAndDegrades (sqrt : ℚ → ℚ) (nf : List PVal → PVal)
    (r : ProviderResponses) (pv : List (ℕ × OHLCV)) : Prop :=
  (∀ e, r.rsi = .error e → get_stock_data sqrt nf r = .error (.fetch e)) ∧
  (∀ e rsiS, fetchStep r.rsi getIndicator1 = .ok rsiS → r.macd = .error e →
    get_stock_data sqrt nf r = .error (.fetch e)) ∧
  (∀ e rsiS macdS, fetchStep r.rsi getIndicator1 = .ok rsiS →
    fetchStep r.macd getMacd = .ok macdS → r.sma = .error e →
    get_stock_data sqrt nf r = .error (.fetch e)) ∧
  (∀ entries, r.rsi = .ok (some entries) →
    parseEntries RawVal.parse? entries = none →
    get_stock_data sqrt nf r = .error .norm) ∧
  (∀ entries rsiS, fetchStep r.rsi getIndicator1 = .ok rsiS →
    r.macd = .ok (some entries) → parseEntries parseMACD entries = none →
    get_stock_data sqrt nf r = .error .norm) ∧
  (∀ entries rsiS macdS, fetchStep r.rsi getIndicator1 = .ok rsiS →
    fetchStep r.macd getMacd = .ok macdS →
    r.sma = .ok (some entries) → parseEntries RawVal.parse? entries = none →
    get_stock_data sqrt nf r = .error .norm) ∧
  (∀ macdS smaS, r.rsi = .ok none →
    fetchStep r.macd getMacd = .ok macdS →
    fetchStep r.sma getIndicator1 = .ok smaS →
    get_stock_data sqrt nf r = .ok (mkTable sqrt nf pv [] macdS smaS) ∧
    "rsi" ∉ (mkTable sqrt nf pv [] macdS smaS).cols.map Prod.fst ∧
    MandatoryIntact sqrt nf (mkTable sqrt nf pv [] macdS smaS) pv) ∧
  (∀ rsiS smaS, fetchStep r.rsi getIndicator1 = .ok rsiS → r.macd = .ok none →
    fetchStep r.sma getIndicator1 = .ok smaS →
    get_stock_data sqrt nf r = .ok (mkTable sqrt nf pv rsiS [] smaS) ∧
    "macd" ∉ (mkTable sqrt nf pv rsiS [] smaS).cols.map Prod.fst ∧
    "macd_signal" ∉ (mkTable sqrt nf pv rsiS [] smaS).cols.map Prod.fst ∧
    MandatoryIntact sqrt nf (mkTable sqrt nf pv rsiS [] smaS) pv) ∧
  (∀ rsiS macdS, fetchStep r.rsi getIndicator1 = .ok rsiS →
    fetchStep r.macd getMacd = .ok macdS → r.sma = .ok none →
    get_stock_data sqrt nf r = .ok (mkTable sqrt nf pv rsiS macdS []) ∧
    "sma_20" ∉ (mkTable sqrt nf pv rsiS macdS []).cols.map Prod.fst ∧
    MandatoryIntact sqrt nf (mkTable sqrt nf pv rsiS macdS []) pv)

/-! ### Concrete fixtures used by witnesses and counterexamples -/

/-- A well-formed one-row raw price payload entry (all fields numeric). -/
def okRow : RawOHLCV := ⟨.num 1, .num 1, .num 1, .num 1, .num 1⟩

/-- Its parsed form. -/
def okRowP : OHLCV := ⟨1, 1, 1, 1, 1⟩

/-- A run whose price payload is fine and whose three optional payload keys
are absent (provider notice bodies delivered successfully). -/
def respAbsentKeys : ProviderResponses :=
  { price := .ok (some [(0, okRow)]), rsi := .ok none,
    macd := .ok none, sma := .ok none }

/-- A run whose price payload is fine but whose MACD fetch raises a
transport exception. -/
def respMacdDown : ProviderResponses :=
  { price := .ok (some [(0, okRow)]), rsi := .ok none,
    macd := .error .transport, sma := .ok none }

/-- A fully successful run: two price rows, an RSI value for one of the two
dates, MACD key absent, SMA payload present but empty. -/
def respFull : ProviderResponses :=
  { price := .ok (some [(1, okRow), (0, okRow)]),
    rsi := .ok (some [(1, .num 50)]),
    macd := .ok (some [(0, ⟨.num 2, .num 3, .num 4⟩)]),
    sma := .ok (some []) }

/-- The table produced when all three optional payload keys are absent. -/
def tableAbsent : Table :=
  mkTable id (fun _ => PVal.nan) [(0, okRowP)] [] [] []

/-- The table the fully successful run produces. -/
def tableFull : Table :=
  mkTable id (fun _ => PVal.nan) [(0, okRowP), (1, okRowP)]
    [(1, 50)] [(0, ⟨2, 3, 4⟩)] []

/-! ### Helper lemmas -/

theorem parseEntries_keys {f : α → Option β} :
    ∀ {l : List (ℕ × α)} {l' : List (ℕ × β)},
      parseEntries f l = some l' → l'.map Prod.fst = l.map Prod.fst := by
  intro l
  induction l with
  | nil =>
    intro l' h
    simp only [parseEntries, Option.some.injEq] at h
    subst h; rfl
  | cons hd tl ih =>
    intro l' h
    obtain ⟨d, r⟩ := hd
    simp only [parseEntries] at h
    cases hf : f r with
    | none => rw [hf] at h; exact absurd h (by simp)
    | some p =>
      rw [hf] at h
      cases hrest : parseEntries f tl with
      | none => rw [hrest] at h; exact absurd h (by simp)
      | some ps =>
        rw [hrest] at h
        simp only [Option.some.injEq] at h
        subst h
        simp [ih hrest]

theorem parseEntries_mem {f : α → Option β} :
    ∀ {l : List (ℕ × α)} {l' : List (ℕ × β)} {p : ℕ × β},
      parseEntries f l = some l' → p ∈ l' →
      ∃ raw, (p.1, raw) ∈ l ∧ f raw = some p.2 := by
  intro l
  induction l with
  | nil =>
    intro l' p h hp
    simp only [parseEntries, Option.some.injEq] at h
    subst h
    exact absurd hp (List.not_mem_nil p)
  | cons hd tl ih =>
    intro l' p h hp
    obtain ⟨d, r⟩ := hd
    simp only [parseEntries] at h
    cases hf : f r with
    | none => rw [hf] at h; exact absurd h (by simp)
    | some q =>
      rw [hf] at h
      cases hrest : parseEntries f tl with
      | none => rw [hrest] at h; exact absurd h (by simp)
      | some ps =>
        rw [hrest] at h
        simp only [Option.some.injEq] at h
        subst h
        rcases List.mem_cons.mp hp with hp1 | hp2
        · subst hp1
          exact ⟨r, List.mem_cons_self _ _, hf⟩
        · obtain ⟨raw, hmem, hfr⟩ := ih hrest hp2
          exact ⟨raw, List.mem_cons_of_mem _ hmem, hfr⟩

theorem sortByDate_perm (l : List (ℕ × α)) : (sortByDate l).Perm l :=
  List.perm_insertionSort dateLE l

theorem sortByDate_sorted (l : List (ℕ × α)) :
    ((sortByDate l).map Prod.fst).Pairwise (· ≤ ·) := by
  have h : (sortByDate l).Pairwise dateLE := List.sorted_insertionSort dateLE l
  exact h.map Prod.fst (fun a b hab => hab)

theorem sortByDate_strict (l : List (ℕ × α)) (hnd : (l.map Prod.fst).Nodup) :
    ((sortByDate l).map Prod.fst).Pairwise (· < ·) := by
  have hperm : ((sortByDate l).map Prod.fst).Perm (l.map Prod.fst) :=
    (sortByDate_perm l).map Prod.fst
  have hnd2 : ((sortByDate l).map Prod.fst).Nodup := hperm.nodup_iff.mpr hnd
  have hle := sortByDate_sorted l
  exact (hle.and hnd2).imp (fun hab => lt_of_le_of_ne hab.1 hab.2)

theorem getPriceVolume_ok {raw : Option (List (ℕ × RawOHLCV))} {pv : List (ℕ × OHLCV)}
    (h : getPriceVolume raw = .ok pv) :
    ∃ entries parsed, raw = some entries ∧
      parseEntries parseOHLCV entries = some parsed ∧
      parsed ≠ [] ∧ pv = sortByDate parsed := by
  cases raw with
  | none => exact absurd h (by simp [getPriceVolume])
  | some entries =>
    refine ⟨entries, ?_⟩
    simp only [getPriceVolume] at h
    cases hp : parseEntries parseOHLCV entries with
    | none => rw [hp] at h; exact absurd h (by simp)
    | some parsed =>
      rw [hp] at h
      by_cases he : parsed.isEmpty
      · simp [he] at h
      · simp only [he, if_false, Bool.false_eq_true, Except.ok.injEq] at h
        exact ⟨parsed, rfl, rfl, by simpa [List.isEmpty_iff] using he, h.symm⟩

theorem getIndicator1_ok {raw : Option (List (ℕ × RawVal))} {s : List (ℕ × ℚ)}
    (h : getIndicator1 raw = .ok s) :
    (raw = none ∧ s = []) ∨
    (∃ entries parsed, raw = some entries ∧
      parseEntries RawVal.parse? entries = some parsed ∧ s = sortByDate parsed) := by
  cases raw with
  | none =>
    left
    simp only [getIndicator1, Except.ok.injEq] at h
    exact ⟨rfl, h.symm⟩
  | some entries =>
    right
    refine ⟨entries, ?_⟩
    simp only [getIndicator1] at h
    cases hp : parseEntries RawVal.parse? entries with
    | none => rw [hp] at h; exact absurd h (by simp)
    | some parsed =>
      rw [hp] at h
      simp only [Except.ok.injEq] at h
      exact ⟨parsed, rfl, rfl, h.symm⟩

theorem getMacd_ok {raw : Option (List (ℕ × RawMACD))} {s : List (ℕ × MACDRow)}
    (h : getMacd raw = .ok s) :
    (raw = none ∧ s = []) ∨
    (∃ entries parsed, raw = some entries ∧
      parseEntries parseMACD entries = some parsed ∧ s = sortByDate parsed) := by
  cases raw with
  | none =>
    left
    simp only [getMacd, Except.ok.injEq] at h
    exact ⟨rfl, h.symm⟩
  | some entries =>
    right
    refine ⟨entries, ?_⟩
    simp only [getMacd] at h
    cases hp : parseEntries parseMACD entries with
    | none => rw [hp] at h; exact absurd h (by simp)
    | some parsed =>
      rw [hp] at h
      simp only [Except.ok.injEq] at h
      exact ⟨parsed, rfl, rfl, h.symm⟩

theorem lookupCell_fin_mem {s : List (ℕ × ℚ)} {d : ℕ} {v : ℚ}
    (h : lookupCell s d = .fin v) : (d, v) ∈ s := by
  induction s with
  | nil => simp [lookupCell, List.lookup] at h
  | cons hd tl ih =>
    obtain ⟨d', v'⟩ := hd
    by_cases hd2 : d = d'
    · subst hd2
      simp only [lookupCell, List.lookup, beq_self_eq_true, PVal.fin.injEq] at h
      subst h
      exact List.mem_cons_self _ _
    · have hne : (d == d') = false := beq_false_of_ne hd2
      simp only [lookupCell, List.lookup, hne] at h
      exact List.mem_cons_of_mem _ (ih h)

theorem lookupCell_nan_of_not_mem {s : List (ℕ × ℚ)} {d : ℕ}
    (h : d ∉ s.map Prod.fst) : lookupCell s d = .nan := by
  induction s with
  | nil => rfl
  | cons hd tl ih =>
    obtain ⟨d', v'⟩ := hd
    simp only [List.map_cons, List.mem_cons] at h
    push_neg at h
    have hne : (d == d') = false := beq_false_of_ne h.1
    simp only [lookupCell, List.lookup, hne]
    exact ih h.2

theorem get_stock_data_ok_iff (sqrt : ℚ → ℚ) (nf : List PVal → PVal)
    (r : ProviderResponses) (t : Table) :
    get_stock_data sqrt nf r = .ok t ↔
    ∃ pv rsi macd sma,
      fetchStep r.price getPriceVolume = .ok pv ∧
      fetchStep r.rsi getIndicator1 = .ok rsi ∧
      fetchStep r.macd getMacd = .ok macd ∧
      fetchStep r.sma getIndicator1 = .ok sma ∧
      t = mkTable sqrt nf pv rsi macd sma := by
  unfold get_stock_data
  cases h1 : fetchStep r.price getPriceVolume with
  | error e => simp [h1]
  | ok pv =>
    cases h2 : fetchStep r.rsi getIndicator1 with
    | error e => simp [h1, h2]
    | ok rsi =>
      cases h3 : fetchStep r.macd getMacd with
      | error e => simp [h1, h2, h3]
      | ok macd =>
        cases h4 : fetchStep r.sma getIndicator1 with
        | error e => simp [h1, h2, h3, h4]
        | ok sma =>
          simp only [h1, h2, h3, h4]
          constructor
          · intro h
            simp only [Except.ok.injEq] at h
            exact ⟨pv, rsi, macd, sma, rfl, rfl, rfl, rfl, h.symm⟩
          · rintro ⟨pv', rsi', macd', sma', hp, hr, hm, hs, ht⟩
            simp only [Except.ok.injEq] at hp hr hm hs
            subst hp; subst hr; subst hm; subst hs; subst ht
            rfl

/-! ### Claim theorems -/

/-- Claim C8: when the API credential is absent from the environment,
constructing the fetcher raises a fatal configuration error, and a whole
aggregation run under an absent credential issues no request at all and
produces no output. -/
theorem missing_credential_fatal_before_any_request
    (sqrt : ℚ → ℚ) (nf : List PVal → PVal) (cfg : Config) (r : ProviderResponses) :
    initFetcher cfg none = .error .config ∧
    runAgg sqrt nf cfg none r = ([], .error .config) :=
  ⟨rfl, rfl⟩

/-- Claim C10: two configurations that agree on the symbol but may differ
in every indicator parameter issue identical requests (in particular the
RSI request carries the literal time_period 14, the SMA request the literal
time_period 20, both the literal series_type "close") and, for identical
provider responses, produce identical results. -/
theorem run_independent_of_indicator_params
    (sqrt : ℚ → ℚ) (nf : List PVal → PVal) (cfg1 cfg2 : Config)
    (h : cfg1.symbol = cfg2.symbol) (k : String)
    (env_api_key : Option String) (r : ProviderResponses) :
    priceParams cfg1 k = priceParams cfg2 k ∧
    rsiParams cfg1 k = rsiParams cfg2 k ∧
    macdParams cfg1 k = macdParams cfg2 k ∧
    smaParams cfg1 k = smaParams cfg2 k ∧
    ("time_period", "14") ∈ rsiParams cfg1 k ∧
    ("series_type", "close") ∈ rsiParams cfg1 k ∧
    ("time_period", "20") ∈ smaParams cfg1 k ∧
    ("series_type", "close") ∈ smaParams cfg1 k ∧
    runAgg sqrt nf cfg1 env_api_key r = runAgg sqrt nf cfg2 env_api_key r := by
  refine ⟨by simp [priceParams, h], by simp [rsiParams, h], by simp [macdParams, h],
    by simp [smaParams, h], by simp [rsiParams], by simp [rsiParams],
    by simp [smaParams], by simp [smaParams], ?_⟩
  cases env_api_key with
  | none => rfl
  | some key =>
    by_cases hk : key = ""
    · simp [runAgg, initFetcher, hk]
    · simp only [runAgg, initFetcher, hk, if_false]
      simp [priceParams, rsiParams, macdParams, smaParams, h]

/-- Witness for C10 at two concrete configurations differing in all four
indicator parameters. -/
theorem run_independent_of_indicator_params_witness :
    (Config.mk "IBM" 14 20 "close" "close").symbol =
      (Config.mk "IBM" 7 50 "high" "low").symbol ∧
    runAgg id (fun _ => PVal.nan) (Config.mk "IBM" 14 20 "close" "close") (some "key")
        { price := .error .transport, rsi := .error .transport,
          macd := .error .transport, sma := .error .transport } =
      runAgg id (fun _ => PVal.nan) (Config.mk "IBM" 7 50 "high" "low") (some "key")
        { price := .error .transport, rsi := .error .transport,
          macd := .error .transport, sma := .error .transport } :=
  ⟨rfl, (run_independent_of_indicator_params id (fun _ => PVal.nan)
    (Config.mk "IBM" 14 20 "close" "close") (Config.mk "IBM" 7 50 "high" "low")
    rfl "key" (some "key")
    { price := .error .transport, rsi := .error .transport,
      macd := .error .transport, sma := .error .transport }).2.2.2.2.2.2.2.2⟩

/-- Counterexample to claim C4 as stated: for the PRICE_VOLUME kind, a raw
response whose payload key is present but maps to zero entries does not
normalize to a valid empty series — it fails (the column rename
`df.columns = [5 names]` raises a length-mismatch ValueError on the
0-column DataFrame built from an empty payload). -/
theorem price_empty_payload_fails :
    getPriceVolume (some []) = .error .norm :=
  rfl

/-- Claim C4, amended: a key-present-but-zero-entry payload normalizes to a
valid empty series, indistinguishable from the key-absent case, for the
optional indicator kinds (RSI, MACD, SMA); for PRICE_VOLUME both the
zero-entry payload and the absent key fail normalization. -/
theorem empty_payload_same_as_absent_for_optional :
    getIndicator1 (some []) = .ok [] ∧
    getIndicator1 none = .ok [] ∧
    getMacd (some []) = .ok [] ∧
    getMacd none = .ok [] ∧
    getPriceVolume (some []) = .error .norm ∧
    getPriceVolume none = .error .norm :=
  ⟨rfl, rfl, rfl, rfl, rfl, rfl⟩

/-- Claim C5: for each optional indicator (RSI, MACD, SMA), a raw response
lacking the expected payload key normalizes to an empty series rather than
failing, and any table the run then produces has none of that indicator's
columns (they are omitted from the schema, not filled with nulls). -/
theorem key_absent_empty_series_no_columns
    (sqrt : ℚ → ℚ) (nf : List PVal → PVal) (r : ProviderResponses) (t : Table) :
    (r.rsi = .ok none → fetchStep r.rsi getIndicator1 = .ok [] ∧
      (get_stock_data sqrt nf r = .ok t → "rsi" ∉ t.cols.map Prod.fst)) ∧
    (r.macd = .ok none → fetchStep r.macd getMacd = .ok [] ∧
      (get_stock_data sqrt nf r = .ok t →
        "macd" ∉ t.cols.map Prod.fst ∧ "macd_signal" ∉ t.cols.map Prod.fst)) ∧
    (r.sma = .ok none → fetchStep r.sma getIndicator1 = .ok [] ∧
      (get_stock_data sqrt nf r = .ok t → "sma_20" ∉ t.cols.map Prod.fst)) := by
  refine ⟨?_, ?_, ?_⟩
  · intro hrsi
    refine ⟨by rw [hrsi]; rfl, ?_⟩
    intro h
    rw [get_stock_data_ok_iff] at h
    obtain ⟨pv, rsi, macd, sma, hp, hr, hm, hs, ht⟩ := h
    rw [hrsi] at hr
    have hnil : rsi = [] := by
      simpa [fetchStep, getIndicator1] using hr.symm
    subst hnil
    subst ht
    by_cases h2 : macd.isEmpty <;> by_cases h3 : sma.isEmpty <;>
      simp [mkTable, h2, h3]
  · intro hmacd
    refine ⟨by rw [hmacd]; rfl, ?_⟩
    intro h
    rw [get_stock_data_ok_iff] at h
    obtain ⟨pv, rsi, macd, sma, hp, hr, hm, hs, ht⟩ := h
    rw [hmacd] at hm
    have hnil : macd = [] := by
      simpa [fetchStep, getMacd] using hm.symm
    subst hnil
    subst ht
    constructor <;>
      (by_cases h1 : rsi.isEmpty <;> by_cases h3 : sma.isEmpty <;>
        simp [mkTable, h1, h3])
  · intro hsma
    refine ⟨by rw [hsma]; rfl, ?_⟩
    intro h
    rw [get_stock_data_ok_iff] at h
    obtain ⟨pv, rsi, macd, sma, hp, hr, hm, hs, ht⟩ := h
    rw [hsma] at hs
    have hnil : sma = [] := by
      simpa [fetchStep, getIndicator1] using hs.symm
    subst hnil
    subst ht
    by_cases h1 : rsi.isEmpty <;> by_cases h2 : macd.isEmpty <;>
      simp [mkTable, h1, h2]

/-- Witness for C5 at a concrete run in which all three optional payload
keys are absent, exercising each of the three blocks. -/
theorem key_absent_empty_series_no_columns_witness :
    (respAbsentKeys.rsi = .ok none →
      fetchStep respAbsentKeys.rsi getIndicator1 = .ok [] ∧
      (get_stock_data id (fun _ => PVal.nan) respAbsentKeys = .ok tableAbsent →
        "rsi" ∉ tableAbsent.cols.map Prod.fst)) ∧
    (respAbsentKeys.macd = .ok none →
      fetchStep respAbsentKeys.macd getMacd = .ok [] ∧
      (get_stock_data id (fun _ => PVal.nan) respAbsentKeys = .ok tableAbsent →
        "macd" ∉ tableAbsent.cols.map Prod.fst ∧
        "macd_signal" ∉ tableAbsent.cols.map Prod.fst)) ∧
    (respAbsentKeys.sma = .ok none →
      fetchStep respAbsentKeys.sma getIndicator1 = .ok [] ∧
      (get_stock_data id (fun _ => PVal.nan) respAbsentKeys = .ok tableAbsent →
        "sma_20" ∉ tableAbsent.cols.map Prod.fst)) :=
  key_absent_empty_series_no_columns id (fun _ => PVal.nan) respAbsentKeys tableAbsent

/-- Counterexample to claim C1 as stated: a run in which the mandatory
PRICE_VOLUME fetch and normalization succeed but the MACD fetch raises a
transport-level FetchError does not return a table — the exception
propagates (there is no try/except in the code) and the run aborts. -/
theorem macd_fetch_error_aborts_run :
    fetchStep respMacdDown.price getPriceVolume = .ok [(0, okRowP)] ∧
    get_stock_data id (fun _ => PVal.nan) respMacdDown
      = .error (.fetch .transport) :=
  ⟨rfl, rfl⟩

/-- The first six columns of any merged table are exactly the mandatory
price/volume/volatility columns built from the price series. -/
theorem mkTable_mandatory (sqrt : ℚ → ℚ) (nf : List PVal → PVal)
    (pv : List (ℕ × OHLCV)) (rsiS : List (ℕ × ℚ)) (macdS : List (ℕ × MACDRow))
    (smaS : List (ℕ × ℚ)) :
    MandatoryIntact sqrt nf (mkTable sqrt nf pv rsiS macdS smaS) pv :=
  ⟨rfl, rfl⟩

/-- Claim C1, amended: when the mandatory price series normalizes
successfully, a transport-level FetchError on any single optional indicator
(RSI, MACD, or SMA, with the steps the code runs before it succeeding)
aborts the whole aggregation, and so does a NormalizationError from
unparsable content on any single optional indicator; only a
transport-successful response lacking the expected payload key degrades
that one indicator to absent-for-all-rows, in which case the run returns a
table without that indicator's columns whose rows and mandatory
price/volume/volatility columns come from the price series alone. -/
theorem optional_indicator_errors_abort_run
    (sqrt : ℚ → ℚ) (nf : List PVal → PVal) (r : ProviderResponses)
    (pv : List (ℕ × OHLCV)) (hp : fetchStep r.price getPriceVolume = .ok pv) :
    AbortsAndDegrades sqrt nf r pv := by
  refine ⟨?_, ?_, ?_, ?_, ?_, ?_, ?_, ?_, ?_⟩
  · intro e he
    unfold get_stock_data
    rw [hp, he]
    rfl
  · intro e rsiS hr hm
    unfold get_stock_data
    rw [hp, hr, hm]
    rfl
  · intro e rsiS macdS hr hm hs
    unfold get_stock_data
    rw [hp, hr, hm, hs]
    rfl
  · intro entries he hparse
    unfold get_stock_data
    rw [hp, he]
    simp [fetchStep, getIndicator1, hparse]
  · intro entries rsiS hr hm hparse
    unfold get_stock_data
    rw [hp, hr, hm]
    simp [fetchStep, getMacd, hparse]
  · intro entries rsiS macdS hr hm hs hparse
    unfold get_stock_data
    rw [hp, hr, hm, hs]
    simp [fetchStep, getIndicator1, hparse]
  · intro macdS smaS h1 hm hs
    refine ⟨?_, ?_, mkTable_mandatory sqrt nf pv [] macdS smaS⟩
    · unfold get_stock_data
      rw [hp, h1, hm, hs]
      rfl
    · by_cases h2 : macdS.isEmpty <;> by_cases h3 : smaS.isEmpty <;>
        simp [mkTable, h2, h3]
  · intro rsiS smaS hr h2 hs
    refine ⟨?_, ?_, ?_, mkTable_mandatory sqrt nf pv rsiS [] smaS⟩
    · unfold get_stock_data
      rw [hp, hr, h2, hs]
      rfl
    · by_cases h1 : rsiS.isEmpty <;> by_cases h3 : smaS.isEmpty <;>
        simp [mkTable, h1, h3]
    · by_cases h1 : rsiS.isEmpty <;> by_cases h3 : smaS.isEmpty <;>
        simp [mkTable, h1, h3]
  · intro rsiS macdS hr hm h3
    refine ⟨?_, ?_, mkTable_mandatory sqrt nf pv rsiS macdS []⟩
    · unfold get_stock_data
      rw [hp, hr, hm, h3]
      rfl
    · by_cases h1 : rsiS.isEmpty <;> by_cases h2 : macdS.isEmpty <;>
        simp [mkTable, h1, h2]

/-- Witness for C1 (amended) at a concrete run: price payload fine, all
three optional payload keys absent. -/
theorem optional_indicator_errors_abort_run_witness :
    fetchStep respAbsentKeys.price getPriceVolume = .ok [(0, okRowP)] ∧
    AbortsAndDegrades id (fun _ => PVal.nan) respAbsentKeys [(0, okRowP)] :=
  ⟨rfl, optional_indicator_errors_abort_run id (fun _ => PVal.nan)
    respAbsentKeys [(0, okRowP)] rfl⟩

/-- Claim C7: the output columns appear in the exact order open, high, low,
close, volume, volatility, then rsi (iff the RSI series is non-empty), then
macd and macd_signal (iff the MACD series is non-empty), then sma_20 (iff
the SMA series is non-empty); volatility is always present on success, and
no other field — in particular MACD_Hist — ever appears. -/
theorem output_column_order
    (sqrt : ℚ → ℚ) (nf : List PVal → PVal) (r : ProviderResponses) (t : Table)
    (h : get_stock_data sqrt nf r = .ok t) :
    ∃ pv rsiS macdS smaS,
      fetchStep r.price getPriceVolume = .ok pv ∧
      fetchStep r.rsi getIndicator1 = .ok rsiS ∧
      fetchStep r.macd getMacd = .ok macdS ∧
      fetchStep r.sma getIndicator1 = .ok smaS ∧
      t.cols.map Prod.fst =
        ["open", "high", "low", "close", "volume", "volatility"]
        ++ (if rsiS.isEmpty then [] else ["rsi"])
        ++ (if macdS.isEmpty then [] else ["macd", "macd_signal"])
        ++ (if smaS.isEmpty then [] else ["sma_20"]) ∧
      "volatility" ∈ t.cols.map Prod.fst ∧
      "MACD_Hist" ∉ t.cols.map Prod.fst := by
  rw [get_stock_data_ok_iff] at h
  obtain ⟨pv, rsiS, macdS, smaS, hp, hr, hm, hs, ht⟩ := h
  subst ht
  refine ⟨pv, rsiS, macdS, smaS, hp, hr, hm, hs, ?_, ?_, ?_⟩
  · by_cases h1 : rsiS.isEmpty <;> by_cases h2 : macdS.isEmpty <;>
      by_cases h3 : smaS.isEmpty <;> simp [mkTable, h1, h2, h3]
  · simp [mkTable]
  · by_cases h1 : rsiS.isEmpty <;> by_cases h2 : macdS.isEmpty <;>
      by_cases h3 : smaS.isEmpty <;> simp [mkTable, h1, h2, h3]

/-- Witness for C7 at a concrete successful run (non-empty RSI and MACD
series, empty SMA series). -/
theorem output_column_order_witness :
    get_stock_data id (fun _ => PVal.nan) respFull
      = .ok (mkTable id (fun _ => PVal.nan) [(0, okRowP), (1, okRowP)]
          [(1, 50)] [(0, ⟨2, 3, 4⟩)] []) ∧
    (∃ pv rsiS macdS smaS,
      fetchStep respFull.price getPriceVolume = .ok pv ∧
      fetchStep respFull.rsi getIndicator1 = .ok rsiS ∧
      fetchStep respFull.macd getMacd = .ok macdS ∧
      fetchStep respFull.sma getIndicator1 = .ok smaS ∧
      (mkTable id (fun _ => PVal.nan) [(0, okRowP), (1, okRowP)]
          [(1, 50)] [(0, ⟨2, 3, 4⟩)] []).cols.map Prod.fst =
        ["open", "high", "low", "close", "volume", "volatility"]
        ++ (if rsiS.isEmpty then [] else ["rsi"])
        ++ (if macdS.isEmpty then [] else ["macd", "macd_signal"])
        ++ (if smaS.isEmpty then [] else ["sma_20"]) ∧
      "volatility" ∈ (mkTable id (fun _ => PVal.nan) [(0, okRowP), (1, okRowP)]
          [(1, 50)] [(0, ⟨2, 3, 4⟩)] []).cols.map Prod.fst ∧
      "MACD_Hist" ∉ (mkTable id (fun _ => PVal.nan) [(0, okRowP), (1, okRowP)]
          [(1, 50)] [(0, ⟨2, 3, 4⟩)] []).cols.map Prod.fst) :=
  ⟨rfl, output_column_order id (fun _ => PVal.nan) respFull
    (mkTable id (fun _ => PVal.nan) [(0, okRowP), (1, okRowP)]
      [(1, 50)] [(0, ⟨2, 3, 4⟩)] []) rfl⟩

/-- Claim C3: on success, the output rows are exactly the normalized price
series's dates, in its (ascending) order — the same multiset of dates as the
raw price payload, so no price row is dropped and none added — and every
optional indicator column is filled purely by exact-date lookup into that
indicator's normalized series: a non-null cell value always comes verbatim
from the series at that date, and a date absent from the series always
yields a null cell, never an interpolated or fabricated value. -/
theorem rows_exactly_price_dates_no_fabrication
    (sqrt : ℚ → ℚ) (nf : List PVal → PVal) (r : ProviderResponses) (t : Table)
    (h : get_stock_data sqrt nf r = .ok t) :
    ∃ pv entries rsiS macdS smaS,
      r.price = .ok (some entries) ∧
      fetchStep r.price getPriceVolume = .ok pv ∧
      fetchStep r.rsi getIndicator1 = .ok rsiS ∧
      fetchStep r.macd getMacd = .ok macdS ∧
      fetchStep r.sma getIndicator1 = .ok smaS ∧
      t.dates = pv.map Prod.fst ∧
      t.dates.Perm (entries.map Prod.fst) ∧
      t.dates.Pairwise (· ≤ ·) ∧
      ((entries.map Prod.fst).Nodup → t.dates.Pairwise (· < ·)) ∧
      (∀ col, ("rsi", col) ∈ t.cols → col = t.dates.map (lookupCell rsiS)) ∧
      (∀ col, ("macd", col) ∈ t.cols →
        col = t.dates.map (lookupCell (macdS.map (fun x => (x.1, x.2.MACD))))) ∧
      (∀ col, ("macd_signal", col) ∈ t.cols →
        col = t.dates.map (lookupCell (macdS.map (fun x => (x.1, x.2.MACD_Signal))))) ∧
      (∀ col, ("sma_20", col) ∈ t.cols → col = t.dates.map (lookupCell smaS)) ∧
      (∀ s : List (ℕ × ℚ), ∀ d v, lookupCell s d = .fin v → (d, v) ∈ s) ∧
      (∀ s : List (ℕ × ℚ), ∀ d, d ∉ s.map Prod.fst → lookupCell s d = .nan) := by
  rw [get_stock_data_ok_iff] at h
  obtain ⟨pv, rsiS, macdS, smaS, hp, hr, hm, hs, ht⟩ := h
  have hpv := hp
  cases hpr : r.price with
  | error e => rw [hpr] at hp; exact absurd hp (by simp [fetchStep])
  | ok raw =>
    rw [hpr] at hp
    have hp2 : getPriceVolume raw = .ok pv := hp
    obtain ⟨entries, parsed, hraw, hparse, hne, hsorted⟩ := getPriceVolume_ok hp2
    subst hraw
    subst hsorted
    subst ht
    have hkeys : parsed.map Prod.fst = entries.map Prod.fst := parseEntries_keys hparse
    refine ⟨sortByDate parsed, entries, rsiS, macdS, smaS, rfl, hp2, hr, hm, hs,
      rfl, ?_, ?_, ?_, ?_, ?_, ?_, ?_,
      fun s d v hv => lookupCell_fin_mem hv, fun s d hd => lookupCell_nan_of_not_mem hd⟩
    · show ((sortByDate parsed).map Prod.fst).Perm (entries.map Prod.fst)
      exact hkeys ▸ (sortByDate_perm parsed).map Prod.fst
    · show ((sortByDate parsed).map Prod.fst).Pairwise (· ≤ ·)
      exact sortByDate_sorted parsed
    · intro hnd
      show ((sortByDate parsed).map Prod.fst).Pairwise (· < ·)
      exact sortByDate_strict parsed (by rw [hkeys]; exact hnd)
    · intro col hcol
      by_cases h1 : rsiS.isEmpty <;> by_cases h2 : macdS.isEmpty <;>
        by_cases h3 : smaS.isEmpty <;> simp [mkTable, h1, h2, h3] at hcol <;>
        (rw [hcol]; simp [mkTable, List.map_map])
    · intro col hcol
      by_cases h1 : rsiS.isEmpty <;> by_cases h2 : macdS.isEmpty <;>
        by_cases h3 : smaS.isEmpty <;> simp [mkTable, h1, h2, h3] at hcol <;>
        (rw [hcol]; simp [mkTable, List.map_map])
    · intro col hcol
      by_cases h1 : rsiS.isEmpty <;> by_cases h2 : macdS.isEmpty <;>
        by_cases h3 : smaS.isEmpty <;> simp [mkTable, h1, h2, h3] at hcol <;>
        (rw [hcol]; simp [mkTable, List.map_map])
    · intro col hcol
      by_cases h1 : rsiS.isEmpty <;> by_cases h2 : macdS.isEmpty <;>
        by_cases h3 : smaS.isEmpty <;> simp [mkTable, h1, h2, h3] at hcol <;>
        (rw [hcol]; simp [mkTable, List.map_map])

/-- Witness for C3 at the fully successful concrete run. -/
theorem rows_exactly_price_dates_no_fabrication_witness :
    get_stock_data id (fun _ => PVal.nan) respFull = .ok tableFull ∧
    (∃ pv entries rsiS macdS smaS,
      respFull.price = .ok (some entries) ∧
      fetchStep respFull.price getPriceVolume = .ok pv ∧
      fetchStep respFull.rsi getIndicator1 = .ok rsiS ∧
      fetchStep respFull.macd getMacd = .ok macdS ∧
      fetchStep respFull.sma getIndicator1 = .ok smaS ∧
      tableFull.dates = pv.map Prod.fst ∧
      tableFull.dates.Perm (entries.map Prod.fst) ∧
      tableFull.dates.Pairwise (· ≤ ·) ∧
      ((entries.map Prod.fst).Nodup → tableFull.dates.Pairwise (· < ·)) ∧
      (∀ col, ("rsi", col) ∈ tableFull.cols →
        col = tableFull.dates.map (lookupCell rsiS)) ∧
      (∀ col, ("macd", col) ∈ tableFull.cols →
        col = tableFull.dates.map (lookupCell (macdS.map (fun x => (x.1, x.2.MACD))))) ∧
      (∀ col, ("macd_signal", col) ∈ tableFull.cols →
        col = tableFull.dates.map (lookupCell (macdS.map (fun x => (x.1, x.2.MACD_Signal))))) ∧
      (∀ col, ("sma_20", col) ∈ tableFull.cols →
        col = tableFull.dates.map (lookupCell smaS)) ∧
      (∀ s : List (ℕ × ℚ), ∀ d v, lookupCell s d = .fin v → (d, v) ∈ s) ∧
      (∀ s : List (ℕ × ℚ), ∀ d, d ∉ s.map Prod.fst → lookupCell s d = .nan)) :=
  ⟨rfl, rows_exactly_price_dates_no_fabrication id (fun _ => PVal.nan)
    respFull tableFull rfl⟩

/-- Every successful normalization of a key-present payload yields a series
satisfying `SeriesInvariant` (shared proof for all four indicator kinds). -/
theorem sortByDate_invariant {f : α → Option β} {e : List (ℕ × α)}
    {parsed : List (ℕ × β)} (hparse : parseEntries f e = some parsed) :
    SeriesInvariant f e (sortByDate parsed) := by
  have hkeys : parsed.map Prod.fst = e.map Prod.fst := parseEntries_keys hparse
  refine ⟨?_, ?_, ?_, sortByDate_sorted parsed, ?_⟩
  · exact hkeys ▸ (sortByDate_perm parsed).map Prod.fst
  · have h1 : (sortByDate parsed).length = parsed.length :=
      (sortByDate_perm parsed).length_eq
    have h2 : parsed.length = e.length := by
      have := congrArg List.length hkeys
      simpa using this
    omega
  · intro p hp
    exact parseEntries_mem hparse ((sortByDate_perm parsed).mem_iff.mp hp)
  · intro hnd
    exact sortByDate_strict parsed (by rw [hkeys]; exact hnd)

/-- Claim C9: for every key-present raw payload of any of the four kinds
that normalizes successfully, the normalized series is sorted ascending by
date, with strictly ascending (hence unique) dates whenever the payload's
parsed dates are pairwise distinct (JSON keys are unique), and normalization
neither collapses nor fabricates rows, nor detaches fields from their date. -/
theorem normalized_series_sorted_strict_no_collapse
    (eP : List (ℕ × RawOHLCV)) (sP : List (ℕ × OHLCV))
    (eR : List (ℕ × RawVal)) (sR : List (ℕ × ℚ))
    (eM : List (ℕ × RawMACD)) (sM : List (ℕ × MACDRow))
    (eS : List (ℕ × RawVal)) (sS : List (ℕ × ℚ))
    (hP : getPriceVolume (some eP) = .ok sP)
    (hR : getIndicator1 (some eR) = .ok sR)
    (hM : getMacd (some eM) = .ok sM)
    (hS : getIndicator1 (some eS) = .ok sS) :
    SeriesInvariant parseOHLCV eP sP ∧
    SeriesInvariant RawVal.parse? eR sR ∧
    SeriesInvariant parseMACD eM sM ∧
    SeriesInvariant RawVal.parse? eS sS := by
  refine ⟨?_, ?_, ?_, ?_⟩
  · obtain ⟨entries, parsed, heq, hparse, hne, hsort⟩ := getPriceVolume_ok hP
    obtain rfl : entries = eP := by injection heq with h2; exact h2.symm
    subst hsort
    exact sortByDate_invariant hparse
  · rcases getIndicator1_ok hR with ⟨h1, _⟩ | ⟨entries, parsed, heq, hparse, hsort⟩
    · exact absurd h1 (by simp)
    · obtain rfl : entries = eR := by injection heq with h2; exact h2.symm
      subst hsort
      exact sortByDate_invariant hparse
  · rcases getMacd_ok hM with ⟨h1, _⟩ | ⟨entries, parsed, heq, hparse, hsort⟩
    · exact absurd h1 (by simp)
    · obtain rfl : entries = eM := by injection heq with h2; exact h2.symm
      subst hsort
      exact sortByDate_invariant hparse
  · rcases getIndicator1_ok hS with ⟨h1, _⟩ | ⟨entries, parsed, heq, hparse, hsort⟩
    · exact absurd h1 (by simp)
    · obtain rfl : entries = eS := by injection heq with h2; exact h2.symm
      subst hsort
      exact sortByDate_invariant hparse

/-- Witness for C9 at concrete two-row / one-row payloads. -/
theorem normalized_series_sorted_strict_no_collapse_witness :
    getPriceVolume (some [(1, okRow), (0, okRow)]) = .ok [(0, okRowP), (1, okRowP)] ∧
    getIndicator1 (some [(0, RawVal.num 5)]) = .ok [(0, 5)] ∧
    getMacd (some [(0, ⟨.num 2, .num 3, .num 4⟩)]) = .ok [(0, ⟨2, 3, 4⟩)] ∧
    (SeriesInvariant parseOHLCV [(1, okRow), (0, okRow)] [(0, okRowP), (1, okRowP)] ∧
     SeriesInvariant RawVal.parse? [(0, RawVal.num 5)] [(0, 5)] ∧
     SeriesInvariant parseMACD [(0, ⟨.num 2, .num 3, .num 4⟩)] [(0, ⟨2, 3, 4⟩)] ∧
     SeriesInvariant RawVal.parse? [(0, RawVal.num 5)] [(0, 5)]) :=
  ⟨rfl, rfl, rfl,
   normalized_series_sorted_strict_no_collapse
     [(1, okRow), (0, okRow)] [(0, okRowP), (1, okRowP)]
     [(0, RawVal.num 5)] [(0, 5)]
     [(0, ⟨.num 2, .num 3, .num 4⟩)] [(0, ⟨2, 3, 4⟩)]
     [(0, RawVal.num 5)] [(0, 5)] rfl rfl rfl rfl⟩

/-! ### Volatility-column lemmas -/

theorem pctChangeAux_length (prev : ℚ) (rest : List ℚ) :
    (pctChangeAux prev rest).length = rest.length := by
  induction rest generalizing prev with
  | nil => rfl
  | cons c cs ih => simp [pctChangeAux, ih]

theorem pctChange_length (closes : List ℚ) :
    (pctChange closes).length = closes.length := by
  cases closes with
  | nil => rfl
  | cons c rest => simp [pctChange, pctChangeAux_length]

theorem rollingStd_length (sqrt : ℚ → ℚ) (nf : List PVal → PVal) (rs : List PVal) :
    (rollingStd sqrt nf rs).length = rs.length := by
  simp [rollingStd]

theorem rollingStd_getD (sqrt : ℚ → ℚ) (nf : List PVal → PVal) (rs : List PVal)
    (i : ℕ) (d : PVal) (h : i < rs.length) :
    (rollingStd sqrt nf rs).getD i d = stdOfWindow sqrt nf (window20 rs i) := by
  simp [rollingStd, List.getD_eq_getElem?_getD, List.getElem?_map, List.getElem?_range h]

theorem window20_length_le (rs : List PVal) (i : ℕ) : (window20 rs i).length ≤ 20 := by
  simp only [window20, List.length_drop, List.length_take]
  omega

theorem stdOfWindow_nan_of_mem_nan (sqrt : ℚ → ℚ) (nf : List PVal → PVal)
    {w : List PVal} (hw : w.length ≤ 20) (h : PVal.nan ∈ w) :
    stdOfWindow sqrt nf w = .nan := by
  unfold stdOfWindow
  rw [if_pos]
  have hlt : (w.filter (fun v => !v.isNan)).length < w.length :=
    List.length_filter_lt_length_iff_exists.mpr ⟨.nan, h, by simp [PVal.isNan]⟩
  omega

theorem pctChangeAux_getD (d : PVal) :
    ∀ (rest : List ℚ) (prev : ℚ) (i : ℕ), i < rest.length →
      (pctChangeAux prev rest).getD i d =
        divIEEE (rest.getD i 0 - (prev :: rest).getD i 0) ((prev :: rest).getD i 0) := by
  intro rest
  induction rest with
  | nil => intro prev i h; simp at h
  | cons c cs ih =>
    intro prev i h
    cases i with
    | zero => simp [pctChangeAux]
    | succ j =>
      simp only [pctChangeAux, List.getD_cons_succ]
      exact ih c j (by simpa using h)

theorem pctChange_getD_succ (closes : List ℚ) (i : ℕ) (h : i + 1 < closes.length) (d : PVal) :
    (pctChange closes).getD (i + 1) d =
      divIEEE (closes.getD (i + 1) 0 - closes.getD i 0) (closes.getD i 0) := by
  cases closes with
  | nil => simp at h
  | cons c rest =>
    simp only [pctChange, List.getD_cons_succ]
    exact pctChangeAux_getD d rest c i (by simpa using h)

theorem pctChangeAux_embed :
    ∀ (rest : List ℚ) (prev : ℚ), prev ≠ 0 → (∀ c ∈ rest, c ≠ 0) →
      pctChangeAux prev rest = (rSpecAux prev rest).map optEmbed := by
  intro rest
  induction rest with
  | nil => intro prev _ _; rfl
  | cons c cs ih =>
    intro prev hp hr
    simp only [pctChangeAux, rSpecAux, List.map_cons]
    refine congrArg₂ List.cons ?_ ?_
    · simp [divIEEE, optEmbed, hp]
    · exact ih c (hr c (List.mem_cons_self c cs))
        (fun x hx => hr x (List.mem_cons_of_mem c hx))

theorem pctChange_embed {closes : List ℚ} (h : ∀ c ∈ closes, c ≠ 0) :
    pctChange closes = (rSpec closes).map optEmbed := by
  cases closes with
  | nil => rfl
  | cons c rest =>
    simp only [pctChange, rSpec, List.map_cons]
    refine congrArg₂ List.cons rfl ?_
    exact pctChangeAux_embed rest c (h c (List.mem_cons_self c rest))
      (fun x hx => h x (List.mem_cons_of_mem c hx))

theorem window20_map_embed (os : List (Option ℚ)) (i : ℕ) :
    window20 (os.map optEmbed) i = (windowSpec os i).map optEmbed := by
  simp [window20, windowSpec, List.map_take, List.map_drop, List.length_map]

theorem windowSpec_length_le (os : List (Option ℚ)) (i : ℕ) :
    (windowSpec os i).length ≤ 20 := by
  simp only [windowSpec, List.length_drop, List.length_take]
  omega

theorem embed_filter_count (os : List (Option ℚ)) :
    ((os.map optEmbed).filter (fun v => !v.isNan)).length = (os.filterMap id).length := by
  induction os with
  | nil => rfl
  | cons o t ih =>
    cases o with
    | none => simpa [optEmbed, PVal.isNan, List.filter_cons] using ih
    | some q => simpa [optEmbed, PVal.isNan, List.filter_cons] using ih

theorem embed_all_fin :
    ∀ (os : List (Option ℚ)), (os.filterMap id).length = os.length →
      (os.map optEmbed).all PVal.isFin = true ∧
      (os.map optEmbed).map PVal.finVal = os.filterMap id := by
  intro os
  induction os with
  | nil => intro _; exact ⟨rfl, rfl⟩
  | cons o t ih =>
    intro h
    cases o with
    | none =>
      exfalso
      have hle := List.length_filterMap_le (id : Option ℚ → Option ℚ) t
      simp only [List.filterMap_cons, id, List.length_cons] at h
      omega
    | some q =>
      have ht : (t.filterMap id).length = t.length := by
        simp only [List.filterMap_cons, id, List.length_cons] at h
        omega
      obtain ⟨h1, h2⟩ := ih ht
      refine ⟨?_, ?_⟩
      · simp [optEmbed, PVal.isFin, h1]
      · simp [optEmbed, PVal.finVal, h2, List.filterMap_cons]

/-- Claim C2: for a well-formed price series (numeric closes, nonzero so
that every percentage change of the claim is defined), the volatility value
at row i is NaN exactly when fewer than 20 defined percentage-change values
exist in the trailing 20-value window ending at i, and when that window
holds exactly 20 defined values it equals the sample standard deviation
(square root of the (n-1)-divisor variance) of exactly those values. -/
theorem volatility_null_iff_window_incomplete
    (sqrt : ℚ → ℚ) (nf : List PVal → PVal) (pv : List (ℕ × OHLCV))
    (hnz : ∀ x ∈ pv, x.2.close ≠ 0) (i : ℕ) (hi : i < pv.length) :
    ((volatilityCol sqrt nf pv).getD i .nan = .nan ↔
      ((windowSpec (rSpec (pv.map (fun x => x.2.close))) i).filterMap id).length < 20) ∧
    (((windowSpec (rSpec (pv.map (fun x => x.2.close))) i).filterMap id).length = 20 →
      (volatilityCol sqrt nf pv).getD i .nan =
        .fin (sqrt (sampleVar
          ((windowSpec (rSpec (pv.map (fun x => x.2.close))) i).filterMap id)))) := by
  have hcz : ∀ c ∈ pv.map (fun x => x.2.close), c ≠ 0 := by
    intro c hcm
    obtain ⟨x, hx, hxc⟩ := List.mem_map.mp hcm
    exact hxc ▸ hnz x hx
  have hemb := pctChange_embed hcz
  have hlen : i < (pctChange (pv.map (fun x => x.2.close))).length := by
    rw [pctChange_length, List.length_map]
    exact hi
  have hgd : (volatilityCol sqrt nf pv).getD i .nan
      = stdOfWindow sqrt nf (window20 (pctChange (pv.map (fun x => x.2.close))) i) := by
    unfold volatilityCol
    exact rollingStd_getD sqrt nf _ i .nan hlen
  rw [hgd, hemb, window20_map_embed]
  have hcount := embed_filter_count (windowSpec (rSpec (pv.map (fun x => x.2.close))) i)
  have hwlen := windowSpec_length_le (rSpec (pv.map (fun x => x.2.close))) i
  have hcle := List.length_filterMap_le (id : Option ℚ → Option ℚ)
    (windowSpec (rSpec (pv.map (fun x => x.2.close))) i)
  unfold stdOfWindow
  by_cases hlt :
      ((windowSpec (rSpec (pv.map (fun x => x.2.close))) i).filterMap id).length < 20
  · rw [if_pos (by rw [hcount]; exact hlt)]
    exact ⟨⟨fun _ => hlt, fun _ => rfl⟩, fun h20 => absurd h20 (by omega)⟩
  · have h20 :
        ((windowSpec (rSpec (pv.map (fun x => x.2.close))) i).filterMap id).length = 20 := by
      omega
    have hfull :
        ((windowSpec (rSpec (pv.map (fun x => x.2.close))) i).filterMap id).length =
          (windowSpec (rSpec (pv.map (fun x => x.2.close))) i).length := by
      omega
    obtain ⟨hall, hvals⟩ := embed_all_fin _ hfull
    rw [if_neg (by rw [hcount]; omega), if_pos hall, hvals]
    refine ⟨⟨fun hcontra => absurd hcontra (by simp), fun hc => absurd hc (by omega)⟩,
      fun _ => rfl⟩

/-- Witness for C2 at a concrete one-row series (window incomplete, value
NaN). -/
theorem volatility_null_iff_window_incomplete_witness :
    ((∀ x ∈ [((0 : ℕ), okRowP)], x.2.close ≠ 0) ∧ 0 < [((0 : ℕ), okRowP)].length) ∧
    (((volatilityCol id (fun _ => PVal.nan) [(0, okRowP)]).getD 0 .nan = .nan ↔
      ((windowSpec (rSpec ([(0, okRowP)].map (fun x => x.2.close))) 0).filterMap id).length < 20) ∧
     (((windowSpec (rSpec ([(0, okRowP)].map (fun x => x.2.close))) 0).filterMap id).length = 20 →
      (volatilityCol id (fun _ => PVal.nan) [(0, okRowP)]).getD 0 .nan =
        .fin (id (sampleVar
          ((windowSpec (rSpec ([(0, okRowP)].map (fun x => x.2.close))) 0).filterMap id))))) :=
  ⟨⟨by decide, by decide⟩,
   volatility_null_iff_window_incomplete id (fun _ => PVal.nan) [(0, okRowP)]
     (by decide) 0 (by decide)⟩

/-- Counterexample to claim C6 as stated: with closes [0, 5] the percentage
change at index 1 (denominator close is exactly zero) is the value +inf,
not an undefined/null value (NaN) as the claim asserts. -/
theorem zero_close_pct_change_not_null :
    (pctChange [(0 : ℚ), 5]).getD 1 .nan = .pinf ∧ PVal.pinf ≠ PVal.nan :=
  ⟨by norm_num [pctChange, pctChangeAux, divIEEE], by decide⟩

/-- Claim C6, amended: the volatility computation never raises (one output
value per input row); when the close at the denominator position is exactly
zero, the resulting percentage change is NaN if the numerator close is also
zero, and a signed infinity — not null — otherwise; a NaN percentage change
propagates as a null contribution: every trailing window containing it
yields a NaN volatility value. -/
theorem volatility_total_zero_close_behaviour
    (sqrt : ℚ → ℚ) (nf : List PVal → PVal) (closes : List ℚ) (i : ℕ)
    (h1 : i + 1 < closes.length) (h0 : closes.getD i 0 = 0) :
    (rollingStd sqrt nf (pctChange closes)).length = closes.length ∧
    (pctChange closes).getD (i + 1) .nan =
      (if closes.getD (i + 1) 0 = 0 then .nan
       else if 0 < closes.getD (i + 1) 0 then .pinf else .ninf) ∧
    (∀ j, j < (pctChange closes).length →
      PVal.nan ∈ window20 (pctChange closes) j →
      (rollingStd sqrt nf (pctChange closes)).getD j (.fin 0) = .nan) := by
  refine ⟨?_, ?_, ?_⟩
  · rw [rollingStd_length, pctChange_length]
  · rw [pctChange_getD_succ closes i h1, h0]
    simp [divIEEE]
  · intro j hj hmem
    rw [rollingStd_getD sqrt nf _ j _ hj]
    exact stdOfWindow_nan_of_mem_nan sqrt nf (window20_length_le _ _) hmem

/-- Witness for C6 (amended) at closes [0, 0, 3]: 0/0 gives NaN, and the
windows containing it yield NaN volatility. -/
theorem volatility_total_zero_close_behaviour_witness :
    ((0 : ℕ) + 1 < ([0, 0, 3] : List ℚ).length ∧ ([0, 0, 3] : List ℚ).getD 0 0 = 0) ∧
    ((rollingStd id (fun _ => PVal.nan) (pctChange [0, 0, 3])).length
        = ([0, 0, 3] : List ℚ).length ∧
     (pctChange [0, 0, 3]).getD (0 + 1) .nan =
       (if ([0, 0, 3] : List ℚ).getD (0 + 1) 0 = 0 then .nan
        else if 0 < ([0, 0, 3] : List ℚ).getD (0 + 1) 0 then .pinf else .ninf) ∧
     (∀ j, j < (pctChange [0, 0, 3]).length →
       PVal.nan ∈ window20 (pctChange [0, 0, 3]) j →
       (rollingStd id (fun _ => PVal.nan) (pctChange [0, 0, 3])).getD j (.fin 0) = .nan)) :=
  ⟨⟨by decide, rfl⟩,
   volatility_total_zero_close_behaviour id (fun _ => PVal.nan) [0, 0, 3] 0
     (by decide) rfl⟩

end Watai
